import Mathlib

/-!
Shallow embedding of the organiser views in `src/pretalx/orga/views/event.py`
(pretalx). Database tables are lists of records, Django model instances are
the same record type with an optional primary key, and each view handler is a
pure function from the request data and the current table contents to the new
table contents plus the observable effects (messages, redirects, queued
mails, log actions, dispatched tasks). Framework collaborators that are not
part of this repository (formset validation and its
new/changed/deleted decomposition — the changed entries being the
(instance, changed_fields) tuples Django produces — the SMTP backend, the
mail object returned by the invite helper) enter as explicit inputs or as
abstract recorded effects.
-/

namespace Pretalx

/-- A user account as consumed by these views: `pk` is the database primary
key, `nick` and `email` are the two lookup fields of `EventTeam._find_user`,
and the two flags are the attributes read by `EventDetail.dispatch`. -/
structure User where
  pk : Nat
  nick : String
  email : String
  is_anonymous : Bool := false
  is_administrator : Bool := false
deriving DecidableEq

/-- One `EventPermission` record. `id = none` models an unsaved Django
instance (primary key `None`); rows stored in the table always carry
`id = some i`. `user = none` models a NULL user column (an invitation that
has not been accepted), and the two invitation fields model the email and
token columns of pending invitations. -/
structure EventPermission where
  id : Option Nat
  event : Nat
  user : Option Nat
  is_orga : Bool
  is_reviewer : Bool
  review_override_count : Nat
  invitation_email : Option String
  invitation_token : Option String
deriving DecidableEq

/-- Next free primary key of the permission table. -/
def fresh_id (db : List EventPermission) : Nat :=
  db.foldl (fun m q => max m (q.id.getD 0)) 0 + 1

/-- Django `instance.save()` on the permission table: an instance without a
primary key is inserted under a fresh one, an instance with a primary key
replaces the row having that key. Returns the new table and the saved
instance (with its assigned key). -/
def save_perm (db : List EventPermission) (p : EventPermission) :
    List EventPermission × EventPermission :=
  if p.id == none then
    let saved := { p with id := some (fresh_id db) }
    (db ++ [saved], saved)
  else
    (db.map (fun q => if q.id == p.id then p else q), p)

/-- Django `instance.delete()`: drop the row carrying the given primary key. -/
def delete_perm (db : List EventPermission) (i : Option Nat) :
    List EventPermission :=
  db.filter (fun q => !(q.id == i))

/-- `EventTeam._find_user`: first user whose `nick` equals the email, else
first user whose `email` equals it. -/
def find_user (users : List User) (mail : String) : Option User :=
  match users.find? (fun u => u.nick == mail) with
  | some u => some u
  | none => users.find? (fun u => u.email == mail)

/-- The exception a Python attribute access on the wrong type raises. -/
inductive PyExn where
  | attributeError
deriving DecidableEq

/-- The data the view reads off the inline formset: whether it validated,
the new and deleted instance lists, and `formset.changed_objects`, which
Django populates with (instance, changed_fields) pairs — tuples, not
instances. -/
structure TeamFormset where
  valid : Bool
  new_objects : List EventPermission
  changed_objects : List (EventPermission × List String)
  deleted_objects : List EventPermission
deriving DecidableEq

/-- `EventTeam._count_orga_permissions` on a list of instances (the shape
of `new_objects` and `deleted_objects`). -/
def count_orga_permissions (ps : List EventPermission) : Nat :=
  (ps.filter (fun p => p.is_orga)).length

/-- `EventTeam._count_orga_permissions` on `formset.changed_objects`: each
entry is an (instance, changed_fields) tuple, and a tuple has no `is_orga`
attribute, so the comprehension raises AttributeError at the first entry;
only the empty list yields a count. -/
def count_orga_changed (ps : List (EventPermission × List String)) :
    Except PyExn Nat :=
  match ps with
  | [] => Except.ok 0
  | _ => Except.error PyExn.attributeError

/-- `EventTeam.has_remaining_team`: signed count of organiser permissions
among new plus changed minus deleted entries, compared against zero; the
changed count raises AttributeError whenever a changed row exists, and the
exception propagates. -/
def has_remaining_team (fs : TeamFormset) : Except PyExn Bool :=
  match count_orga_changed fs.changed_objects with
  | Except.error e => Except.error e
  | Except.ok c =>
    Except.ok (decide (0 < (count_orga_permissions fs.new_objects : Int)
        + (c : Int)
        - (count_orga_permissions fs.deleted_objects : Int)))

/-- `formset.save(commit=False)` returns the changed (existing) instances
followed by the new ones — the instances themselves, without the
changed-fields components. -/
def formset_permissions (fs : TeamFormset) : List EventPermission :=
  fs.changed_objects.map Prod.fst ++ fs.new_objects

/-- Python truthiness of the `invitation_email` field: both NULL and the
empty string are falsy. -/
def truthy_email (mail : Option String) : Bool :=
  !(mail.getD "" == "")

/-- The user-matching step of the invite branch of `EventTeam.post`: when a
user with the invited address exists, bind the permission to that user and
clear both invitation fields; otherwise leave the instance unchanged. -/
def invite_process (users : List User) (p : EventPermission) :
    EventPermission :=
  if truthy_email p.invitation_email then
    match find_user users (p.invitation_email.getD "") with
    | some u =>
      { p with
        user := some u.pk
        invitation_email := none
        invitation_token := none }
    | none => p
  else p

/-- User-visible messages of the team view. `invited` records the value of
`permission.invitation_email` at the moment the success message is
formatted. -/
inductive TeamMsg where
  | error_saving_changes
  | lonely_event
  | invited (mail : Option String)
deriving DecidableEq

/-- Accumulator of the save loop of `EventTeam.post`: the evolving table,
the saved instances in order, and the accumulated messages, queued mails
(recorded by recipient field) and log actions. -/
structure TeamStep where
  db : List EventPermission
  saved : List EventPermission
  msgs : List TeamMsg
  mails : List (Option String)
  logs : List String
deriving DecidableEq

/-- One iteration of the save loop of `EventTeam.post`: process the
invitation fields, queue the invite mail, log and message when an
invitation email is present, then save the instance. -/
def team_save_step (users : List User) (st : TeamStep) (p : EventPermission) :
    TeamStep :=
  if truthy_email p.invitation_email then
    let p1 := invite_process users p
    let s := save_perm st.db p1
    { db := s.1
      saved := st.saved ++ [s.2]
      msgs := st.msgs ++ [TeamMsg.invited p1.invitation_email]
      mails := st.mails ++ [p1.invitation_email]
      logs := st.logs ++ ["pretalx.invite.orga.send"] }
  else
    let s := save_perm st.db p
    { st with db := s.1, saved := st.saved ++ [s.2] }

/-- One iteration of the duplicate-removal loop of `EventTeam.post`: for a
saved permission with a user, delete every other row of the same event and
user. -/
def dedup_step (d : List EventPermission) (p : EventPermission) :
    List EventPermission :=
  match p.user with
  | some _ =>
    d.filter (fun q => !(q.event == p.event && q.user == p.user
        && !(q.id == p.id)))
  | none => d

/-- Outcome of `EventTeam.post`: final table, saved instances, messages,
sent mails, log actions; the view redirects to the team settings page on
every path. -/
structure TeamResult where
  db : List EventPermission
  saved : List EventPermission
  msgs : List TeamMsg
  mails_sent : List (Option String)
  logs : List String
  redirected_to_team : Bool
deriving DecidableEq

/-- `EventTeam.post`: reject an invalid formset with an error message;
propagate the AttributeError the guard raises whenever a changed row
exists (the transaction decorator rolls back, and nothing was written
before the guard anyway — save with commit False writes nothing and the
deletions come later); reject a formset failing the guard with the lonely
message; otherwise delete the deleted instances, run the save/invite loop
over the changed and new instances, run the duplicate-removal loop over
the saved instances, and send the queued mails. -/
def event_team_post (users : List User) (db : List EventPermission)
    (fs : TeamFormset) : Except PyExn TeamResult :=
  if !fs.valid then
    Except.ok
      { db := db
        saved := []
        msgs := [TeamMsg.error_saving_changes]
        mails_sent := []
        logs := []
        redirected_to_team := true }
  else
    match has_remaining_team fs with
    | Except.error e => Except.error e
    | Except.ok remaining =>
      if !remaining then
        Except.ok
          { db := db
            saved := []
            msgs := [TeamMsg.lonely_event]
            mails_sent := []
            logs := []
            redirected_to_team := true }
      else
        let db1 := fs.deleted_objects.foldl (fun d p => delete_perm d p.id) db
        let st := (formset_permissions fs).foldl (team_save_step users)
          { db := db1, saved := [], msgs := [], mails := [], logs := [] }
        let db2 := st.saved.foldl dedup_step st.db
        Except.ok
          { db := db2
            saved := st.saved
            msgs := st.msgs
            mails_sent := st.mails
            logs := st.logs
            redirected_to_team := true }

/-- Redirect targets used by these views. -/
inductive Redirect where
  | event_base
  | orga_base
  | team_settings
  | mail_settings
  | user_settings
deriving DecidableEq

/-- User-visible messages of the invitation view. -/
inductive InvMsg where
  | auth_problem
  | joined_team
deriving DecidableEq

/-- Outcome of `InvitationView.form_valid`. -/
structure InvResult where
  db : List EventPermission
  msgs : List InvMsg
  logs : List String
  redirect : Redirect
  logged_in : Option Nat
deriving DecidableEq

/-- The queryset `EventPermission.objects.filter(user=user,
event=permission.event).exclude(pk=permission.pk)` of
`InvitationView.form_valid`, in table order. -/
def inv_other_perms (db : List EventPermission) (p : EventPermission)
    (upk : Nat) : List EventPermission :=
  db.filter (fun q => q.user == some upk && q.event == p.event
      && !(q.id == p.id))

/-- `InvitationView.form_valid`: resolve the accepting user from the form,
merge into the first other permission of that user for the event when one
exists (taking the disjunction of the two flag pairs and deleting the
invitation row), otherwise bind the invitation row itself to the user. -/
def invitation_form_valid (users : List User) (db : List EventPermission)
    (permission : EventPermission) (user_id : Option Nat) : InvResult :=
  match user_id.bind (fun uid => users.find? (fun x => x.pk == uid)) with
  | none =>
    { db := db
      msgs := [InvMsg.auth_problem]
      logs := []
      redirect := Redirect.event_base
      logged_in := none }
  | some user =>
    match (inv_other_perms db permission user.pk).head? with
    | some q =>
      let q1 := { q with
        is_orga := q.is_orga || permission.is_orga
        is_reviewer := q.is_reviewer || permission.is_reviewer }
      let dba := (save_perm db q1).1
      let dbb := delete_perm dba permission.id
      let q2 := { q1 with user := some user.pk }
      { db := (save_perm dbb q2).1
        msgs := [InvMsg.joined_team]
        logs := ["pretalx.invite.orga.accept"]
        redirect := Redirect.orga_base
        logged_in := some user.pk }
    | none =>
      let p2 := { permission with user := some user.pk }
      { db := (save_perm db p2).1
        msgs := [InvMsg.joined_team]
        logs := ["pretalx.invite.orga.accept"]
        redirect := Redirect.orga_base
        logged_in := some user.pk }

/-- Lowercase a string character by character, modelling case-insensitive
comparison. -/
def py_lower (s : String) : List Char :=
  s.data.map Char.toLower

/-- The lookup predicate of `InvitationView.object`: a permission row with
no user attached whose invitation token equals the URL code
case-insensitively (a NULL token never matches). -/
def token_matches (p : EventPermission) (code : String) : Bool :=
  p.user == none &&
    (match p.invitation_token with
     | some t => py_lower t == py_lower code
     | none => false)

/-- Outcome of the `get_object_or_404` lookup of `InvitationView.object`:
the unique matching row, an HTTP 404 when none matches, or a
multiple-rows error. -/
inductive LookupResult where
  | found (p : EventPermission)
  | http404
  | multiple
deriving DecidableEq

/-- `InvitationView.object`: `get_object_or_404` over the token predicate. -/
def invitation_object (db : List EventPermission) (code : String) :
    LookupResult :=
  match db.filter (fun p => token_matches p code) with
  | [] => LookupResult.http404
  | [p] => LookupResult.found p
  | _ => LookupResult.multiple

/-- Python str.strip: drop leading and trailing whitespace. -/
def py_strip (s : String) : String :=
  String.mk
    (((s.data.dropWhile Char.isWhitespace).reverse.dropWhile
        Char.isWhitespace).reverse)

/-- The mail settings submitted through `MailSettingsForm`, restricted to
the fields these views read. -/
structure MailSettingsData where
  mail_from : String
  smtp_host : String
  smtp_port : Nat
  smtp_use_custom : Bool
deriving DecidableEq

/-- Result of the test call on the event mail backend, an input to the
view: the backend either succeeds or raises an exception with a message. -/
inductive TestOutcome where
  | ok
  | err (e : String)
deriving DecidableEq

/-- User-visible messages of the mail settings view. -/
inductive MailMsg where
  | smtp_error (e : String)
  | saved_and_connected
  | saved_check_custom_hint
  | saved_plain
deriving DecidableEq

/-- Outcome of `EventMailSettings.form_valid`: the settings stored after
the handler, whether a test mail was attempted and to which address,
messages and the redirect target. -/
structure MailResult where
  saved : Option MailSettingsData
  test_attempted : Bool
  test_recipient : Option String
  msgs : List MailMsg
  redirect : Redirect
deriving DecidableEq

/-- `EventMailSettings.form_valid`: save the form first; when the POST
field named test strips to the string 1, test the custom backend against
the saved sender address, warning and redirecting on an exception and
otherwise choosing the success message by the custom-SMTP checkbox; with
no test requested, show the plain success message. Every path redirects to
the mail settings page. -/
def mail_settings_form_valid (post_test : Option String)
    (form : MailSettingsData) (backend : TestOutcome) : MailResult :=
  if py_strip (post_test.getD "0") == "1" then
    match backend with
    | TestOutcome.err e =>
      { saved := some form
        test_attempted := true
        test_recipient := some form.mail_from
        msgs := [MailMsg.smtp_error e]
        redirect := Redirect.mail_settings }
    | TestOutcome.ok =>
      if form.smtp_use_custom then
        { saved := some form
          test_attempted := true
          test_recipient := some form.mail_from
          msgs := [MailMsg.saved_and_connected]
          redirect := Redirect.mail_settings }
      else
        { saved := some form
          test_attempted := true
          test_recipient := some form.mail_from
          msgs := [MailMsg.saved_check_custom_hint]
          redirect := Redirect.mail_settings }
  else
    { saved := some form
      test_attempted := false
      test_recipient := none
      msgs := [MailMsg.saved_plain]
      redirect := Redirect.mail_settings }

/-- An event row: only the primary key matters to the claims here; `none`
models an instance not saved yet. -/
structure EventObj where
  pk : Option Nat
deriving DecidableEq

/-- The organiser permission created for the requesting user on event
creation. -/
structure CreatedPerm where
  event : Nat
  user : Nat
  is_orga : Bool
deriving DecidableEq

/-- User-visible messages of the event detail view. -/
inductive DetailMsg where
  | new_event_created
  | settings_saved
deriving DecidableEq

/-- Outcome of `EventDetail.form_valid`: whether the event form was saved
or the handler fell through to `form_invalid`, the primary keys passed to
the regenerate-css task, the permission created on a new event, messages
and log actions. -/
structure DetailResult where
  saved : Bool
  fell_to_invalid : Bool
  css_dispatch : List Nat
  created_permission : Option CreatedPerm
  msgs : List DetailMsg
  logs : List String
deriving DecidableEq

/-- `EventDetail.form_valid`: on an edit an invalid settings form aborts
into `form_invalid`; otherwise the event form is saved (a new instance
getting the fresh primary key), the creation branch creates the organiser
permission, the edit branch saves the settings form, and the
regenerate-css task is dispatched once with the saved primary key. -/
def event_detail_form_valid (inst : EventObj) (sform_valid : Bool)
    (fresh_pk : Nat) (request_user : Nat) : DetailResult :=
  let new_event := inst.pk.isNone
  if !new_event && !sform_valid then
    { saved := false
      fell_to_invalid := true
      css_dispatch := []
      created_permission := none
      msgs := []
      logs := [] }
  else
    let pk := inst.pk.getD fresh_pk
    if new_event then
      { saved := true
        fell_to_invalid := false
        css_dispatch := [pk]
        created_permission := some { event := pk, user := request_user, is_orga := true }
        msgs := [DetailMsg.new_event_created]
        logs := ["pretalx.event.create"] }
    else
      { saved := true
        fell_to_invalid := false
        css_dispatch := [pk]
        created_permission := none
        msgs := [DetailMsg.settings_saved]
        logs := ["pretalx.event.update"] }

/-- The user attributes read by `EventDetail.dispatch`. -/
structure RequestUser where
  is_anonymous : Bool
  is_administrator : Bool
deriving DecidableEq

/-- `EventDetail._action`: create when the URL carries no event, otherwise
edit or view by the change-settings permission. -/
def event_detail_action (kwargs_has_event : Bool) (has_write_perm : Bool) :
    String :=
  if !kwargs_has_event then "create"
  else if has_write_perm then "edit"
  else "view"

/-- Outcome of `EventDetail.dispatch`: either PermissionDenied or handing
over to the base dispatch. -/
inductive DispatchOutcome where
  | permission_denied
  | proceed
deriving DecidableEq

/-- `EventDetail.dispatch`: in the create action, deny authenticated
non-administrators; in the other actions, deny whoever lacks the
change-settings permission. -/
def event_detail_dispatch (kwargs_has_event : Bool) (u : RequestUser)
    (has_change_perm : Bool) : DispatchOutcome :=
  if event_detail_action kwargs_has_event has_change_perm == "create" then
    if !u.is_anonymous && !u.is_administrator then
      DispatchOutcome.permission_denied
    else DispatchOutcome.proceed
  else
    if !has_change_perm then DispatchOutcome.permission_denied
    else DispatchOutcome.proceed

/-- A POST to the create view composed with the dispatch guard: a denied
dispatch leaves the event table untouched, otherwise the new event row is
inserted. -/
def event_create_request (events : List EventObj) (u : RequestUser)
    (fresh_pk : Nat) : List EventObj × DispatchOutcome :=
  match event_detail_dispatch false u true with
  | DispatchOutcome.permission_denied =>
    (events, DispatchOutcome.permission_denied)
  | DispatchOutcome.proceed =>
    (events ++ [{ pk := some fresh_pk }], DispatchOutcome.proceed)

/-- Which of the four mutually exclusive things `UserSettings.post` did. -/
inductive UserAction where
  | password_saved
  | profile_saved
  | token_regenerated
  | error_shown
deriving DecidableEq

/-- Outcome of `UserSettings.post`. -/
structure UserSettingsResult where
  action : UserAction
  logs : List String
  redirect : Redirect
deriving DecidableEq

/-- `UserSettings.login_form` is bound exactly when continuing a POST whose
action field is the string login. -/
def login_form_bound (post_action : Option String) : Bool :=
  post_action == some "login"

/-- `UserSettings.profile_form` is bound exactly when the POST action field
is the string profile. -/
def profile_form_bound (post_action : Option String) : Bool :=
  post_action == some "profile"

/-- `UserSettings.post`: try the bound-and-valid login form, then the
bound-and-valid profile form, then the token regeneration request, then
the error message; always redirect to the user settings page. -/
def user_settings_post (post_action : Option String)
    (post_form : Option String) (login_valid : Bool) (profile_valid : Bool) :
    UserSettingsResult :=
  if login_form_bound post_action && login_valid then
    { action := UserAction.password_saved
      logs := ["pretalx.user.password.update"]
      redirect := Redirect.user_settings }
  else if profile_form_bound post_action && profile_valid then
    { action := UserAction.profile_saved
      logs := ["pretalx.user.profile.update"]
      redirect := Redirect.user_settings }
  else if post_form == some "token" then
    { action := UserAction.token_regenerated
      logs := []
      redirect := Redirect.user_settings }
  else
    { action := UserAction.error_shown
      logs := []
      redirect := Redirect.user_settings }

/-- Well-formedness of the permission table: every row has a primary key
and keys identify rows. -/
def perm_db_wf (db : List EventPermission) : Prop :=
  (∀ p ∈ db, p.id.isSome = true) ∧ ∀ p ∈ db, ∀ q ∈ db, p.id = q.id → p = q

/-- Observable per-permission invite effect of the team view save loop:
nothing for a permission without an invitation email, otherwise the value
of the email field after the user-matching step (which is what the queued
mail, the log entry and the success message all carry). -/
def invite_out (users : List User) (p : EventPermission) :
    Option (Option String) :=
  if truthy_email p.invitation_email then
    some ((invite_process users p).invitation_email)
  else none

/-- Forget the primary key of an instance; `save_perm` changes nothing
else. -/
def erase_id (p : EventPermission) : EventPermission :=
  { p with id := none }

/-- Concrete scenario for the last-organiser guard: the single organiser
permission of event 1, held by user 10. -/
def c1P : EventPermission :=
  { id := some 1, event := 1, user := some 10, is_orga := true,
    is_reviewer := false, review_override_count := 0,
    invitation_email := none, invitation_token := none }

/-- The user holding the only organiser permission of the scenario. -/
def c1Users : List User :=
  [{ pk := 10, nick := "u", email := "u@x" }]

/-- First new instance of the scenario: an invitation addressed to the
email of the user already holding the organiser permission. -/
def c1N1 : EventPermission :=
  { id := none, event := 1, user := none, is_orga := true,
    is_reviewer := false, review_override_count := 0,
    invitation_email := some "u@x", invitation_token := some "tok1" }

/-- Second new instance of the scenario: another invitation to the same
address. -/
def c1N2 : EventPermission :=
  { id := none, event := 1, user := none, is_orga := true,
    is_reviewer := false, review_override_count := 0,
    invitation_email := some "u@x", invitation_token := some "tok2" }

/-- The valid formset of the scenario: no changed rows, so the
organiser-count guard runs without raising. -/
def c1Fs : TeamFormset :=
  { valid := true, new_objects := [c1N1, c1N2], changed_objects := [],
    deleted_objects := [] }

/-- The first invitation as saved: bound to user 10, invitation fields
cleared, fresh primary key 2. -/
def c1Saved1 : EventPermission :=
  { id := some 2, event := 1, user := some 10, is_orga := true,
    is_reviewer := false, review_override_count := 0,
    invitation_email := none, invitation_token := none }

/-- The second invitation as saved, under primary key 3. -/
def c1Saved2 : EventPermission :=
  { id := some 3, event := 1, user := some 10, is_orga := true,
    is_reviewer := false, review_override_count := 0,
    invitation_email := none, invitation_token := none }

/-- An invalid formset for exercising the invalid-formset branch. -/
def c4Fs : TeamFormset :=
  { valid := false, new_objects := [], changed_objects := [],
    deleted_objects := [] }

/-- Concrete mail settings form for the mail-test scenario. -/
def c3Form : MailSettingsData :=
  { mail_from := "a@b", smtp_host := "mail.host", smtp_port := 25,
    smtp_use_custom := true }

/-- Concrete scenario for the invite success message: one user whose email
is the invited address. -/
def c5Users : List User :=
  [{ pk := 10, nick := "other", email := "other@user.org" }]

/-- An untouched organiser permission keeping the scenario team
non-empty. -/
def c5P0 : EventPermission :=
  { id := some 1, event := 1, user := some 20, is_orga := true,
    is_reviewer := false, review_override_count := 0,
    invitation_email := none, invitation_token := none }

/-- The new instance inviting the existing user. -/
def c5New : EventPermission :=
  { id := none, event := 1, user := none, is_orga := true,
    is_reviewer := false, review_override_count := 0,
    invitation_email := some "other@user.org", invitation_token := some "t3" }

/-- The valid formset carrying the invitation. -/
def c5Fs : TeamFormset :=
  { valid := true, new_objects := [c5New], changed_objects := [],
    deleted_objects := [] }

/-- The invitation as saved: bound to the matched user, invitation fields
cleared, fresh primary key 2. -/
def c5Bound : EventPermission :=
  { id := some 2, event := 1, user := some 10, is_orga := true,
    is_reviewer := false, review_override_count := 0,
    invitation_email := none, invitation_token := none }

/-- The computed outcome of the invite-message scenario. -/
def c5Res : TeamResult :=
  { db := [c5P0, c5Bound]
    saved := [c5Bound]
    msgs := [TeamMsg.invited none]
    mails_sent := [none]
    logs := ["pretalx.invite.orga.send"]
    redirected_to_team := true }

/-- New instance for the invite-processing witness: an invitation to an
address with no matching user. -/
def c5wNew : EventPermission :=
  { id := none, event := 4, user := none, is_orga := true,
    is_reviewer := false, review_override_count := 0,
    invitation_email := some "x@y", invitation_token := some "t4" }

/-- Formset for the invite-processing witness. -/
def c5wFs : TeamFormset :=
  { valid := true, new_objects := [c5wNew], changed_objects := [],
    deleted_objects := [] }

/-- The witness invitation as saved (no matching user, fields kept). -/
def c5wSaved : EventPermission :=
  { c5wNew with id := some 1 }

/-- The computed outcome of the invite-processing witness. -/
def c5wRes : TeamResult :=
  { db := [c5wSaved]
    saved := [c5wSaved]
    msgs := [TeamMsg.invited (some "x@y")]
    mails_sent := [some "x@y"]
    logs := ["pretalx.invite.orga.send"]
    redirected_to_team := true }

/-- First of two pre-existing duplicate rows for user 10 on event 1. -/
def c8R1 : EventPermission :=
  { id := some 1, event := 1, user := some 10, is_orga := true,
    is_reviewer := false, review_override_count := 0,
    invitation_email := none, invitation_token := none }

/-- Second pre-existing duplicate row for the same event and user. -/
def c8R2 : EventPermission :=
  { id := some 2, event := 1, user := some 10, is_orga := false,
    is_reviewer := true, review_override_count := 0,
    invitation_email := none, invitation_token := none }

/-- A new invitation instance touching neither duplicate. -/
def c8New : EventPermission :=
  { id := none, event := 1, user := none, is_orga := true,
    is_reviewer := false, review_override_count := 0,
    invitation_email := some "new@user.org", invitation_token := some "t2" }

/-- The valid formset leaving the duplicates untouched. -/
def c8Fs : TeamFormset :=
  { valid := true, new_objects := [c8New], changed_objects := [],
    deleted_objects := [] }

/-- The new invitation as saved (no matching user in the scenario). -/
def c8NewSaved : EventPermission :=
  { c8New with id := some 3 }

/-- The computed outcome of the untouched-duplicates scenario. -/
def c8Res : TeamResult :=
  { db := [c8R1, c8R2, c8NewSaved]
    saved := [c8NewSaved]
    msgs := [TeamMsg.invited (some "new@user.org")]
    mails_sent := [some "new@user.org"]
    logs := ["pretalx.invite.orga.send"]
    redirected_to_team := true }

/-- User table of the duplicate-removal witness. -/
def c8wUsers : List User :=
  [{ pk := 11, nick := "w", email := "w@x" }]

/-- New instance for the duplicate-removal witness: an invitation to the
address of the existing user. -/
def c8wNew : EventPermission :=
  { id := none, event := 2, user := none, is_orga := true,
    is_reviewer := false, review_override_count := 0,
    invitation_email := some "w@x", invitation_token := some "t5" }

/-- Formset for the duplicate-removal witness: no changed rows. -/
def c8wFs : TeamFormset :=
  { valid := true, new_objects := [c8wNew], changed_objects := [],
    deleted_objects := [] }

/-- The witness invitation as saved: bound to user 11, fields cleared. -/
def c8wSaved : EventPermission :=
  { id := some 1, event := 2, user := some 11, is_orga := true,
    is_reviewer := false, review_override_count := 0,
    invitation_email := none, invitation_token := none }

/-- The computed outcome of the duplicate-removal witness. -/
def c8wRes : TeamResult :=
  { db := [c8wSaved]
    saved := [c8wSaved]
    msgs := [TeamMsg.invited none]
    mails_sent := [none]
    logs := ["pretalx.invite.orga.send"]
    redirected_to_team := true }

/-- The accepting user of the invitation-merge witness. -/
def c2U : User :=
  { pk := 7, nick := "ann", email := "ann@x" }

/-- User table of the invitation-merge witness. -/
def c2Users : List User := [c2U]

/-- The invitation permission of the merge witness (no user attached). -/
def c2P : EventPermission :=
  { id := some 5, event := 3, user := none, is_orga := true,
    is_reviewer := false, review_override_count := 0,
    invitation_email := none, invitation_token := some "TOK" }

/-- The permission the accepting user already holds for the event. -/
def c2Q : EventPermission :=
  { id := some 6, event := 3, user := some 7, is_orga := false,
    is_reviewer := true, review_override_count := 0,
    invitation_email := none, invitation_token := none }

/-- Permission table of the merge witness. -/
def c2Db : List EventPermission := [c2P, c2Q]

/-- The accepting user of the single-use-token witness. -/
def c9U : User :=
  { pk := 9, nick := "bob", email := "bob@x" }

/-- User table of the single-use-token witness. -/
def c9Users : List User := [c9U]

/-- The pending invitation row of the single-use-token witness. -/
def c9P : EventPermission :=
  { id := some 2, event := 5, user := none, is_orga := false,
    is_reviewer := true, review_override_count := 0,
    invitation_email := some "bob@x", invitation_token := some "AbC" }

/-- Permission table of the single-use-token witness. -/
def c9Db : List EventPermission := [c9P]

/-- C1: the claim says every successful team-settings POST leaves the event
with at least one organiser permission. On the concrete scenario — the
sole organiser permission of the event is held by user 10, and a valid
formset with no changed rows (so the organiser-count guard runs without
raising) adds two new invitation rows both addressed to the email of that
user — the guard passes, the POST succeeds with two success messages and a
redirect, yet the merge loop binds both rows to user 10 and then each pass
of the duplicate-removal loop deletes the other rows of that user,
including the original organiser row, leaving the permission table empty:
the code defeats the protection it intends. -/
theorem team_post_last_orga_lost :
    c1Fs.changed_objects = []
    ∧ count_orga_permissions [c1P] = 1
    ∧ event_team_post c1Users [c1P] c1Fs = Except.ok
        { db := []
          saved := [c1Saved1, c1Saved2]
          msgs := [TeamMsg.invited none, TeamMsg.invited none]
          mails_sent := [none, none]
          logs := ["pretalx.invite.orga.send", "pretalx.invite.orga.send"]
          redirected_to_team := true } :=
  ⟨rfl, rfl, rfl⟩

/-- C4: a POST whose formset does not validate shows the saving-error
message, redirects to the team settings page, and leaves the permission
table untouched — no row is created, modified or deleted. -/
theorem team_post_invalid_formset (users : List User)
    (db : List EventPermission) (fs : TeamFormset)
    (h : fs.valid = false) :
    event_team_post users db fs
      = Except.ok
          { db := db
            saved := []
            msgs := [TeamMsg.error_saving_changes]
            mails_sent := []
            logs := []
            redirected_to_team := true } := by
  simp [event_team_post, h]

/-- Witness for the invalid-formset theorem at a concrete input. -/
theorem team_post_invalid_formset_witness :
    c4Fs.valid = false
    ∧ event_team_post [] [c1P] c4Fs
      = Except.ok
          { db := [c1P]
            saved := []
            msgs := [TeamMsg.error_saving_changes]
            mails_sent := []
            logs := []
            redirected_to_team := true } :=
  ⟨rfl, team_post_invalid_formset [] [c1P] c4Fs rfl⟩

/-- C6: the regenerate-css task is dispatched exactly once with the primary
key of the event whenever the event form is saved — both on creation and on an
edit with a valid settings form — while an edit with an invalid settings
form falls through to form_invalid without saving and without
dispatching. -/
theorem event_form_css_dispatch (inst : EventObj) (v : Bool) (f r : Nat) :
    (event_detail_form_valid inst v f r).css_dispatch
      = (if inst.pk.isNone || v then [inst.pk.getD f] else [])
    ∧ (event_detail_form_valid inst v f r).saved = (inst.pk.isNone || v)
    ∧ (event_detail_form_valid inst v f r).fell_to_invalid
      = !(inst.pk.isNone || v)
    ∧ (event_detail_form_valid inst v f r).css_dispatch.length ≤ 1 := by
  obtain ⟨pk⟩ := inst
  cases pk <;> cases v <;> simp [event_detail_form_valid]

/-- C7: the user-settings POST always redirects to the user settings page;
the login and profile forms are never both bound; the saved action is the
first of bound-valid login form, bound-valid profile form, token request,
error message, and each action excludes the earlier ones; the password and
profile log entries track the respective actions. -/
theorem user_settings_actions_exclusive (a f : Option String)
    (lv pv : Bool) :
    (user_settings_post a f lv pv).redirect = Redirect.user_settings
    ∧ ¬(login_form_bound a = true ∧ profile_form_bound a = true)
    ∧ ((user_settings_post a f lv pv).action = UserAction.password_saved
        ↔ login_form_bound a = true ∧ lv = true)
    ∧ ((user_settings_post a f lv pv).action = UserAction.profile_saved
        ↔ profile_form_bound a = true ∧ pv = true
          ∧ ¬(login_form_bound a = true ∧ lv = true))
    ∧ ((user_settings_post a f lv pv).action = UserAction.token_regenerated
        ↔ f = some "token" ∧ ¬(login_form_bound a = true ∧ lv = true)
          ∧ ¬(profile_form_bound a = true ∧ pv = true))
    ∧ ((user_settings_post a f lv pv).logs
        = if (user_settings_post a f lv pv).action = UserAction.password_saved
          then ["pretalx.user.password.update"]
          else if (user_settings_post a f lv pv).action
              = UserAction.profile_saved
          then ["pretalx.user.profile.update"]
          else []) := by
  cases hl : login_form_bound a <;> cases hp : profile_form_bound a <;>
    cases lv <;> cases pv <;> cases hf : f == some "token" <;>
    simp_all [user_settings_post, login_form_bound, profile_form_bound]

/-- C10: an authenticated user who is not an administrator is denied on the
create action and no event row is created; the guard does not reject an
anonymous user (for any administrator flag and permission value the
dispatch proceeds past this check). -/
theorem event_create_admin_only (events : List EventObj) (u : RequestUser)
    (f : Nat) (h1 : u.is_anonymous = false)
    (h2 : u.is_administrator = false) :
    event_create_request events u f = (events, DispatchOutcome.permission_denied)
    ∧ (∀ b c : Bool,
        event_detail_dispatch false { is_anonymous := true, is_administrator := b } c
          = DispatchOutcome.proceed) := by
  obtain ⟨ha, hb⟩ := u
  subst h1; subst h2
  exact ⟨rfl, fun b c => rfl⟩

/-- Witness for the create-permission theorem at a concrete input. -/
theorem event_create_admin_only_witness :
    ({ is_anonymous := false, is_administrator := false } : RequestUser).is_anonymous = false
    ∧ event_create_request []
        { is_anonymous := false, is_administrator := false } 5
      = ([], DispatchOutcome.permission_denied) :=
  ⟨rfl, (event_create_admin_only [] { is_anonymous := false, is_administrator := false } 5 rfl rfl).1⟩

/-- C3: the mail-settings handler saves the form first on every path and
always redirects to the mail settings page; a test mail is attempted (to
the saved sender address) exactly when the POST test field strips to the
string 1; a failing test yields the SMTP warning while the settings stay
saved; a succeeding test yields the success message selected by the
custom-SMTP checkbox; without a test request the plain success message is
shown. -/
theorem mail_settings_test_spec (pt : Option String)
    (form : MailSettingsData) (bk : TestOutcome) :
    (mail_settings_form_valid pt form bk).saved = some form
    ∧ (mail_settings_form_valid pt form bk).redirect = Redirect.mail_settings
    ∧ (mail_settings_form_valid pt form bk).test_attempted
      = (py_strip (pt.getD "0") == "1")
    ∧ ((mail_settings_form_valid pt form bk).test_attempted = true →
        (mail_settings_form_valid pt form bk).test_recipient
          = some form.mail_from)
    ∧ (∀ e, bk = TestOutcome.err e → (py_strip (pt.getD "0") == "1") = true →
        (mail_settings_form_valid pt form bk).msgs = [MailMsg.smtp_error e])
    ∧ (bk = TestOutcome.ok → (py_strip (pt.getD "0") == "1") = true →
        (mail_settings_form_valid pt form bk).msgs
          = [if form.smtp_use_custom then MailMsg.saved_and_connected
              else MailMsg.saved_check_custom_hint])
    ∧ ((py_strip (pt.getD "0") == "1") = false →
        (mail_settings_form_valid pt form bk).msgs = [MailMsg.saved_plain]) := by
  cases hc : (py_strip (pt.getD "0") == "1") <;> cases bk <;>
    cases hcu : form.smtp_use_custom <;>
    simp_all [mail_settings_form_valid]

/-- Witness for the mail-settings theorem: a requested test that fails
leaves the settings saved and shows the SMTP warning. -/
theorem mail_settings_test_witness :
    (py_strip ((some " 1 " : Option String).getD "0") == "1") = true
    ∧ (mail_settings_form_valid (some " 1 ") c3Form (TestOutcome.err "boom")).msgs
      = [MailMsg.smtp_error "boom"]
    ∧ (mail_settings_form_valid (some " 1 ") c3Form (TestOutcome.err "boom")).saved
      = some c3Form :=
  ⟨by decide,
    (mail_settings_test_spec (some " 1 ") c3Form (TestOutcome.err "boom")).2.2.2.2.1
      "boom" rfl (by decide),
    (mail_settings_test_spec (some " 1 ") c3Form (TestOutcome.err "boom")).1⟩

/-- Saving changes only the primary key of the returned instance. -/
lemma save_perm_snd_erase (db : List EventPermission) (p : EventPermission) :
    erase_id (save_perm db p).2 = erase_id p := by
  by_cases h : (p.id == none) = true
  · simp [save_perm, h, erase_id]
  · simp [save_perm, h, erase_id]

/-- If the invitation email is falsy, the user-matching step is the
identity. -/
lemma invite_process_of_not_truthy (users : List User) (p : EventPermission)
    (h : truthy_email p.invitation_email = false) :
    invite_process users p = p := by
  simp [invite_process, h]

/-- Invariant of the save/invite loop of the team view: the queued mails,
messages and log entries are exactly the per-permission invite effects in
order, and the saved instances are the user-matched inputs up to the
assigned primary keys. -/
lemma team_fold_spec (users : List User) (ps : List EventPermission) :
    ∀ st : TeamStep,
      (ps.foldl (team_save_step users) st).mails
        = st.mails ++ ps.filterMap (invite_out users)
      ∧ (ps.foldl (team_save_step users) st).msgs
        = st.msgs ++ (ps.filterMap (invite_out users)).map TeamMsg.invited
      ∧ (ps.foldl (team_save_step users) st).logs
        = st.logs ++ (ps.filterMap (invite_out users)).map
            (fun _ => "pretalx.invite.orga.send")
      ∧ (ps.foldl (team_save_step users) st).saved.map erase_id
        = st.saved.map erase_id
          ++ ps.map (fun p => erase_id (invite_process users p)) := by
  induction ps with
  | nil => intro st; simp
  | cons p t ih =>
    intro st
    obtain ⟨h1, h2, h3, h4⟩ := ih (team_save_step users st p)
    rw [List.foldl_cons]
    by_cases ht : truthy_email p.invitation_email = true
    · have hx : invite_out users p
          = some ((invite_process users p).invitation_email) := by
        simp [invite_out, ht]
      refine ⟨?_, ?_, ?_, ?_⟩
      · rw [h1]; simp [team_save_step, ht, List.filterMap_cons, hx]
      · rw [h2]; simp [team_save_step, ht, List.filterMap_cons, hx]
      · rw [h3]; simp [team_save_step, ht, List.filterMap_cons, hx]
      · rw [h4]
        simp [team_save_step, ht, save_perm_snd_erase]
    · have ht' : truthy_email p.invitation_email = false := by
        simpa using ht
      have hx : invite_out users p = none := by
        simp [invite_out, ht']
      refine ⟨?_, ?_, ?_, ?_⟩
      · rw [h1]; simp [team_save_step, ht', List.filterMap_cons, hx]
      · rw [h2]; simp [team_save_step, ht', List.filterMap_cons, hx]
      · rw [h3]; simp [team_save_step, ht', List.filterMap_cons, hx]
      · rw [h4]
        simp [team_save_step, ht', save_perm_snd_erase,
          invite_process_of_not_truthy users p ht']

/-- C5 (amended): on every successful team-settings POST, each saved
permission whose invitation email is set queues exactly one invite mail
(all queued mails are then sent), one log entry and one success message, in
formset order; the message and the mail carry the value of the email field
after the user-matching step — the invited address when no user matched,
the cleared value when an existing user was bound; the saved instances are
exactly the user-matched inputs up to primary keys, so a matching user is
bound and the invitation fields are cleared before the mail is queued. -/
theorem team_post_invite_processing (users : List User)
    (db : List EventPermission) (fs : TeamFormset) (r : TeamResult)
    (hv : fs.valid = true)
    (hr : has_remaining_team fs = Except.ok true)
    (hres : event_team_post users db fs = Except.ok r) :
    r.mails_sent = (formset_permissions fs).filterMap (invite_out users)
    ∧ r.msgs
      = ((formset_permissions fs).filterMap (invite_out users)).map
          TeamMsg.invited
    ∧ r.logs
      = ((formset_permissions fs).filterMap (invite_out users)).map
          (fun _ => "pretalx.invite.orga.send")
    ∧ r.saved.map erase_id
      = (formset_permissions fs).map
          (fun p => erase_id (invite_process users p)) := by
  obtain ⟨h1, h2, h3, h4⟩ := team_fold_spec users (formset_permissions fs)
    { db := fs.deleted_objects.foldl (fun d p => delete_perm d p.id) db
      saved := []
      msgs := []
      mails := []
      logs := [] }
  simp only [event_team_post, hv, hr, Bool.not_true, Bool.false_eq_true,
    if_false, Except.ok.injEq] at hres
  subst hres
  exact ⟨by simpa using h1, by simpa using h2, by simpa using h3,
    by simpa using h4⟩

/-- C5 counterexample: when the invited address belongs to an existing
user, the success message (and the queued mail) are built from the cleared
email field, so the shown message does not name the invited address. -/
theorem team_invite_message_names_cleared_email :
    c5Fs.changed_objects = []
    ∧ event_team_post c5Users [c5P0] c5Fs = Except.ok c5Res
    ∧ c5Res.msgs = [TeamMsg.invited none]
    ∧ TeamMsg.invited (some "other@user.org") ∉ c5Res.msgs
    ∧ c5Res.mails_sent = [none]
    ∧ TeamMsg.lonely_event ∉ c5Res.msgs
    ∧ TeamMsg.error_saving_changes ∉ c5Res.msgs :=
  ⟨rfl, rfl, rfl, by decide, rfl, by decide, by decide⟩

/-- Witness for the invite-processing theorem at a concrete input. -/
theorem team_post_invite_processing_witness :
    c5wFs.valid = true
    ∧ has_remaining_team c5wFs = Except.ok true
    ∧ c5wRes.mails_sent = (formset_permissions c5wFs).filterMap (invite_out []) :=
  ⟨rfl, rfl, (team_post_invite_processing [] [] c5wFs c5wRes rfl rfl rfl).1⟩

/-- Membership is preserved downwards through one duplicate-removal step. -/
lemma mem_dedup_step (d : List EventPermission) (a q : EventPermission)
    (h : q ∈ dedup_step d a) : q ∈ d := by
  cases ha : a.user with
  | none => simpa [dedup_step, ha] using h
  | some v =>
    simp only [dedup_step, ha, List.mem_filter] at h
    exact h.1

/-- Membership is preserved downwards through the duplicate-removal
loop. -/
lemma mem_foldl_dedup (l : List EventPermission) :
    ∀ d q, q ∈ l.foldl dedup_step d → q ∈ d := by
  induction l with
  | nil => intro d q h; simpa using h
  | cons a t ih =>
    intro d q h
    exact mem_dedup_step d a q (ih (dedup_step d a) q h)

/-- After the duplicate-removal loop, no surviving row conflicts with any
processed permission that has a user: same event and user forces the same
primary key. -/
lemma foldl_dedup_no_conflict (l : List EventPermission) :
    ∀ d p q, p ∈ l → q ∈ l.foldl dedup_step d → p.user.isSome = true →
      q.event = p.event → q.user = p.user → q.id = p.id := by
  induction l with
  | nil => intro d p q hp; exact absurd hp (List.not_mem_nil p)
  | cons a t ih =>
    intro d p q hp hq hu he hus
    rcases List.mem_cons.1 hp with hpa | hpt
    · subst hpa
      have hq' : q ∈ dedup_step d p := mem_foldl_dedup t (dedup_step d p) q hq
      obtain ⟨v, hv'⟩ := Option.isSome_iff_exists.1 hu
      simp only [dedup_step, hv', List.mem_filter] at hq'
      have hb := hq'.2
      rw [← hv'] at hb
      simp [he, hus] at hb
      exact hb
    · exact ih (dedup_step d a) p q hpt hq hu he hus

/-- C8 (amended): after every successful team-settings POST, for every
saved permission with a user attached, any surviving row of the same event
and user is that permission itself — every other such row was deleted by
the duplicate-removal loop. -/
theorem team_post_saved_user_unique (users : List User)
    (db : List EventPermission) (fs : TeamFormset) (r : TeamResult)
    (hv : fs.valid = true)
    (hr : has_remaining_team fs = Except.ok true)
    (hres : event_team_post users db fs = Except.ok r)
    (p q : EventPermission)
    (hp : p ∈ r.saved)
    (hpu : p.user.isSome = true)
    (hq : q ∈ r.db)
    (he : q.event = p.event) (hus : q.user = p.user) :
    q.id = p.id := by
  simp only [event_team_post, hv, hr, Bool.not_true, Bool.false_eq_true,
    if_false, Except.ok.injEq] at hres
  subst hres
  simp only [] at hp hq
  exact foldl_dedup_no_conflict _ _ p q hp hq hpu he hus

/-- C8 counterexample: duplicate rows of one event and user that the
formset leaves untouched both survive a successful POST, so the table does
not satisfy an unconditional at-most-one-per-pair invariant. -/
theorem team_post_keeps_untouched_duplicates :
    c8Fs.changed_objects = []
    ∧ event_team_post [] [c8R1, c8R2] c8Fs = Except.ok c8Res
    ∧ TeamMsg.error_saving_changes ∉ c8Res.msgs
    ∧ TeamMsg.lonely_event ∉ c8Res.msgs
    ∧ c8R1 ∈ c8Res.db
    ∧ c8R2 ∈ c8Res.db
    ∧ c8R1.event = c8R2.event ∧ c8R1.user = c8R2.user
    ∧ ¬ c8R1.id = c8R2.id :=
  ⟨rfl, rfl, by decide, by decide, by decide, by decide, rfl, rfl, by decide⟩

/-- Witness for the duplicate-removal theorem at a concrete input. -/
theorem team_post_saved_user_unique_witness :
    c8wFs.valid = true ∧ c8wSaved.user.isSome = true
    ∧ c8wSaved.id = c8wSaved.id :=
  ⟨rfl, rfl,
    team_post_saved_user_unique c8wUsers [] c8wFs c8wRes rfl rfl rfl
      c8wSaved c8wSaved (by decide) rfl (by decide) rfl rfl⟩

/-- Updating a row, filtering out another primary key, then updating the
same row again collapses to one pass over the table. -/
lemma upd_del_upd_shape (qid pid : Option Nat) (q1 q2 : EventPermission)
    (hq1 : q1.id = qid) (hne : (qid == pid) = false) :
    ∀ db : List EventPermission,
      (((db.map (fun r => if r.id == qid then q1 else r)).filter
          (fun r => !(r.id == pid))).map
        (fun r => if r.id == qid then q2 else r))
      = db.filterMap (fun r =>
          if r.id == pid then none
          else if r.id == qid then some q2 else some r) := by
  intro db
  have hne2 : ¬ qid = pid := by simpa using hne
  induction db with
  | nil => rfl
  | cons r t ih =>
    by_cases h : r.id = qid <;> by_cases h2 : r.id = pid <;>
      simp_all [List.filterMap_cons, List.filter_cons]

/-- Filtering the image of an Option-valued map is empty when every produced
element fails the filter. -/
lemma filter_filterMap_nil {A : Type} (g : A → Option A) (pr : A → Bool) :
    ∀ l : List A,
      (∀ r ∈ l, ∀ s, g r = some s → pr s = false) →
      (l.filterMap g).filter pr = [] := by
  intro l
  induction l with
  | nil => intro h; rfl
  | cons a t ih =>
    intro h
    cases hga : g a with
    | none =>
      simp only [List.filterMap_cons, hga]
      exact ih (fun r hr => h r (List.mem_cons_of_mem _ hr))
    | some s =>
      have hps : pr s = false := h a (List.mem_cons_self _ _) s hga
      simp only [List.filterMap_cons, hga, List.filter_cons, hps,
        Bool.false_eq_true, if_false]
      exact ih (fun r hr => h r (List.mem_cons_of_mem _ hr))

/-- When exactly one element satisfies a selector, and the Option-valued map
sends every other element to things failing a second filter, filtering the
image retains exactly the image of the selected element. -/
lemma filter_filterMap_single {A : Type} (g : A → Option A)
    (pq pr : A → Bool) (Q q2 : A) (hgQ : g Q = some q2)
    (hq2 : pr q2 = true) :
    ∀ l : List A,
      l.filter pq = [Q] →
      (∀ r ∈ l, pq r = false → ∀ s, g r = some s → pr s = false) →
      (l.filterMap g).filter pr = [q2] := by
  intro l
  induction l with
  | nil => intro h _; exact absurd h (by simp)
  | cons a t ih =>
    intro hf hmiss
    by_cases ha : pq a = true
    · have hsplit : a = Q ∧ t.filter pq = [] := by
        simpa [List.filter_cons, ha] using hf
      obtain ⟨haQ, hft⟩ := hsplit
      subst haQ
      have hnil : (t.filterMap g).filter pr = [] :=
        filter_filterMap_nil g pr t (fun r hr s hgr =>
          hmiss r (List.mem_cons_of_mem _ hr)
            (by
              have := (List.filter_eq_nil_iff.1 hft) r hr
              simpa using this) s hgr)
      simp [List.filterMap_cons, hgQ, List.filter_cons, hq2, hnil]
    · have hfa : pq a = false := by simpa using ha
      have hft : t.filter pq = [Q] := by
        simpa [List.filter_cons, hfa] using hf
      cases hga : g a with
      | none =>
        simp only [List.filterMap_cons, hga]
        exact ih hft (fun r hr => hmiss r (List.mem_cons_of_mem _ hr))
      | some s =>
        have hps : pr s = false := hmiss a (List.mem_cons_self _ _) hfa s hga
        simp only [List.filterMap_cons, hga, List.filter_cons, hps,
          Bool.false_eq_true, if_false]
        exact ih hft (fun r hr => hmiss r (List.mem_cons_of_mem _ hr))

/-- The permission table after the merge branch of
`InvitationView.form_valid`: the invitation row is dropped, the merged row
carries the flag disjunctions and the accepting user, and every other row
is untouched. -/
lemma invitation_merge_db (users : List User) (db : List EventPermission)
    (P : EventPermission) (uid : Nat) (u : User) (Q : EventPermission)
    (hu : users.find? (fun x => x.pk == uid) = some u)
    (hhead : (inv_other_perms db P u.pk).head? = some Q)
    (hQn : (Q.id == none) = false)
    (hne : (Q.id == P.id) = false) :
    (invitation_form_valid users db P (some uid)).db
      = db.filterMap (fun r =>
          if r.id == P.id then none
          else if r.id == Q.id then
            some { Q with
              is_orga := Q.is_orga || P.is_orga
              is_reviewer := Q.is_reviewer || P.is_reviewer
              user := some u.pk }
          else some r) := by
  simp only [invitation_form_valid, Option.some_bind, hu, hhead, save_perm,
    delete_perm, hQn, Bool.false_eq_true, if_false]
  exact upd_del_upd_shape Q.id P.id
    { Q with
      is_orga := Q.is_orga || P.is_orga
      is_reviewer := Q.is_reviewer || P.is_reviewer }
    { Q with
      is_orga := Q.is_orga || P.is_orga
      is_reviewer := Q.is_reviewer || P.is_reviewer
      user := some u.pk }
    rfl hne db

/-- C2: when an invitation permission P (no user attached) is accepted by
a user U who already holds exactly one other permission Q for the same
event, exactly one permission for (U, event) remains, namely Q merged with
P: its organiser flag is true iff the flag of P or of Q was, its reviewer
flag likewise, it is bound to U, and the row of P is deleted; when U holds no other
permission for the event, P itself is bound to U and the rest of the table
is untouched. -/
theorem invitation_accept_merge_spec (users : List User)
    (db : List EventPermission) (P : EventPermission) (uid : Nat) (u : User)
    (hwf : perm_db_wf db)
    (hu : users.find? (fun x => x.pk == uid) = some u)
    (hP : P ∈ db) (hPu : P.user = none) :
    (∀ Q, inv_other_perms db P u.pk = [Q] →
      ((invitation_form_valid users db P (some uid)).db.filter
          (fun s => s.event == P.event && s.user == some u.pk))
        = [{ Q with
              is_orga := Q.is_orga || P.is_orga
              is_reviewer := Q.is_reviewer || P.is_reviewer
              user := some u.pk }]
      ∧ ∀ s ∈ (invitation_form_valid users db P (some uid)).db,
          ¬ s.id = P.id)
    ∧ (inv_other_perms db P u.pk = [] →
        (invitation_form_valid users db P (some uid)).db
          = db.map (fun s =>
              if s.id == P.id then { P with user := some u.pk } else s)) := by
  constructor
  · intro Q hQ
    have hQ2 : db.filter (fun q => q.user == some u.pk && q.event == P.event
        && !(q.id == P.id)) = [Q] := hQ
    have hQmem : Q ∈ db.filter (fun q => q.user == some u.pk
        && q.event == P.event && !(q.id == P.id)) :=
      hQ2 ▸ List.mem_singleton_self Q
    obtain ⟨hQdb, hQpredB⟩ := List.mem_filter.1 hQmem
    have hQfacts : (Q.user = some u.pk ∧ Q.event = P.event)
        ∧ ¬ Q.id = P.id := by
      simpa using hQpredB
    obtain ⟨⟨hQu, hQe⟩, hQid⟩ := hQfacts
    have hne : (Q.id == P.id) = false := by simpa using hQid
    obtain ⟨j, hj⟩ := Option.isSome_iff_exists.1 (hwf.1 Q hQdb)
    have hQn : (Q.id == none) = false := by rw [hj]; rfl
    have hhead : (inv_other_perms db P u.pk).head? = some Q := by
      rw [hQ]; rfl
    have hdb := invitation_merge_db users db P uid u Q hu hhead hQn hne
    rw [hdb]
    constructor
    · refine filter_filterMap_single _ _ _ Q _ ?hgQ ?hq2 db hQ2 ?hmiss
      case hgQ => simp [hne]
      case hq2 => simp [hQe]
      case hmiss =>
        intro r hr hpq s hgs
        by_cases h1 : (r.id == P.id) = true
        · simp [h1] at hgs
        · by_cases h2 : (r.id == Q.id) = true
          · have hrQ : r = Q := hwf.2 r hr Q hQdb (by simpa using h2)
            subst hrQ
            simp [hpq] at hQpredB
          · have hsr : s = r := by
              simp [h1, h2] at hgs
              exact hgs.symm
            subst hsr
            cases hev : (s.event == P.event) with
            | false => simp [hev]
            | true =>
              cases husr : (s.user == some u.pk) with
              | false => simp [hev, husr]
              | true =>
                exfalso
                simp [hev, husr, h1] at hpq
    · intro s hs
      obtain ⟨r, hr, hgr⟩ := List.mem_filterMap.1 hs
      by_cases h1 : (r.id == P.id) = true
      · simp [h1] at hgr
      · by_cases h2 : (r.id == Q.id) = true
        · have hsq : s = { Q with
              is_orga := Q.is_orga || P.is_orga
              is_reviewer := Q.is_reviewer || P.is_reviewer
              user := some u.pk } := by
            simp [h1, h2] at hgr
            exact hgr.symm
          subst hsq
          simpa using hne
        · have hsr : s = r := by
            simp [h1, h2] at hgr
            exact hgr.symm
          subst hsr
          simpa using h1
  · intro hempty
    have hhead0 : (inv_other_perms db P u.pk).head? = none := by
      rw [hempty]; rfl
    obtain ⟨j, hj⟩ := Option.isSome_iff_exists.1 (hwf.1 P hP)
    have hPn : (P.id == none) = false := by rw [hj]; rfl
    simp only [invitation_form_valid, Option.some_bind, hu, hhead0,
      save_perm, hPn, Bool.false_eq_true, if_false]

/-- Witness for the invitation-merge theorem at a concrete input. -/
theorem invitation_accept_merge_witness :
    perm_db_wf c2Db
    ∧ ((invitation_form_valid c2Users c2Db c2P (some 7)).db.filter
        (fun s => s.event == c2P.event && s.user == some c2U.pk))
      = [{ c2Q with
            is_orga := c2Q.is_orga || c2P.is_orga
            is_reviewer := c2Q.is_reviewer || c2P.is_reviewer
            user := some c2U.pk }] :=
  ⟨⟨by decide, by decide⟩,
    ((invitation_accept_merge_spec c2Users c2Db c2P 7 c2U
        ⟨by decide, by decide⟩ rfl (by decide) rfl).1 c2Q rfl).1⟩

/-- C9: the invitation lookup resolves the URL code case-insensitively
against the invitation token, only among permissions with no user
attached: with a unique matching row the lookup returns it (and it has no
user); with no matching row it answers 404; and after a successful
acceptance the same code no longer matches anything, so the lookup answers
404 and the token cannot be redeemed a second time. -/
theorem invitation_token_single_use (users : List User)
    (db : List EventPermission) (P : EventPermission) (code : String)
    (uid : Nat) (u : User)
    (hwf : perm_db_wf db)
    (hm : db.filter (fun p => token_matches p code) = [P])
    (hu : users.find? (fun x => x.pk == uid) = some u) :
    invitation_object db code = LookupResult.found P
    ∧ P.user = none
    ∧ (∀ db2 : List EventPermission,
        db2.filter (fun p => token_matches p code) = [] →
        invitation_object db2 code = LookupResult.http404)
    ∧ invitation_object (invitation_form_valid users db P (some uid)).db code
        = LookupResult.http404 := by
  have hPmem : P ∈ db.filter (fun p => token_matches p code) :=
    hm ▸ List.mem_singleton_self P
  obtain ⟨hPdb, hPtok⟩ := List.mem_filter.1 hPmem
  have hPu : P.user = none := by
    have h : token_matches P code = true := hPtok
    unfold token_matches at h
    rw [Bool.and_eq_true] at h
    simpa using h.1
  refine ⟨?_, hPu, ?_, ?_⟩
  · unfold invitation_object
    rw [hm]
  · intro db2 h2
    unfold invitation_object
    rw [h2]
  · cases hh : (inv_other_perms db P u.pk).head? with
    | some Q =>
      have hQmem : Q ∈ inv_other_perms db P u.pk := by
        cases hl : inv_other_perms db P u.pk with
        | nil => rw [hl] at hh; cases hh
        | cons a t =>
          rw [hl] at hh
          have ha : a = Q := by simpa using hh
          subst ha
          exact List.mem_cons_self _ _
      have hQ2 : Q ∈ db.filter (fun q => q.user == some u.pk
          && q.event == P.event && !(q.id == P.id)) := hQmem
      obtain ⟨hQdb, hQpredB⟩ := List.mem_filter.1 hQ2
      have hQfacts : (Q.user = some u.pk ∧ Q.event = P.event)
          ∧ ¬ Q.id = P.id := by
        simpa using hQpredB
      obtain ⟨⟨hQu, hQe⟩, hQid⟩ := hQfacts
      have hne : (Q.id == P.id) = false := by simpa using hQid
      obtain ⟨j, hj⟩ := Option.isSome_iff_exists.1 (hwf.1 Q hQdb)
      have hQn : (Q.id == none) = false := by rw [hj]; rfl
      have hdb := invitation_merge_db users db P uid u Q hu hh hQn hne
      rw [hdb]
      have hnil : ((db.filterMap (fun r =>
          if r.id == P.id then none
          else if r.id == Q.id then
            some { Q with
              is_orga := Q.is_orga || P.is_orga
              is_reviewer := Q.is_reviewer || P.is_reviewer
              user := some u.pk }
          else some r)).filter (fun p => token_matches p code)) = [] := by
        refine filter_filterMap_nil _ _ db ?_
        intro r hr s hgs
        by_cases h1 : (r.id == P.id) = true
        · simp [h1] at hgs
        · by_cases h2 : (r.id == Q.id) = true
          · have hsq : s = { Q with
                is_orga := Q.is_orga || P.is_orga
                is_reviewer := Q.is_reviewer || P.is_reviewer
                user := some u.pk } := by
              simp [h1, h2] at hgs
              exact hgs.symm
            subst hsq
            simp [token_matches]
          · have hsr : s = r := by
              simp [h1, h2] at hgs
              exact hgs.symm
            subst hsr
            cases htok : token_matches s code with
            | false => rfl
            | true =>
              have hmem : s ∈ db.filter (fun p => token_matches p code) :=
                List.mem_filter.2 ⟨hr, htok⟩
              rw [hm] at hmem
              have hsP : s = P := by simpa using hmem
              rw [hsP] at h1
              exact absurd (beq_self_eq_true P.id) h1
      unfold invitation_object
      rw [hnil]
    | none =>
      obtain ⟨j, hj⟩ := Option.isSome_iff_exists.1 (hwf.1 P hPdb)
      have hPn : (P.id == none) = false := by rw [hj]; rfl
      simp only [invitation_form_valid, Option.some_bind, hu, hh,
        save_perm, hPn, Bool.false_eq_true, if_false]
      have hnil : ((db.map (fun q =>
          if q.id == P.id then { P with user := some u.pk } else q)).filter
            (fun p => token_matches p code)) = [] := by
        refine List.filter_eq_nil_iff.2 ?_
        intro s hs
        obtain ⟨r, hr, hru⟩ := List.mem_map.1 hs
        by_cases h1 : (r.id == P.id) = true
        · rw [← hru]
          simp [h1, token_matches]
        · rw [← hru]
          simp only [h1, Bool.false_eq_true, if_false]
          intro htok
          have hmem : r ∈ db.filter (fun p => token_matches p code) :=
            List.mem_filter.2 ⟨hr, htok⟩
          rw [hm] at hmem
          have hrP : r = P := by simpa using hmem
          rw [hrP] at h1
          exact absurd (beq_self_eq_true P.id) h1
      unfold invitation_object
      rw [hnil]

/-- Witness for the single-use-token theorem at a concrete input. -/
theorem invitation_token_single_use_witness :
    c9Db.filter (fun p => token_matches p "aBc") = [c9P]
    ∧ invitation_object
        (invitation_form_valid c9Users c9Db c9P (some 9)).db "aBc"
      = LookupResult.http404 :=
  ⟨by decide,
    (invitation_token_single_use c9Users c9Db c9P "aBc" 9 c9U
      ⟨by decide, by decide⟩ (by decide) rfl).2.2.2⟩

end Pretalx
